import Mathlib

set_option linter.unusedVariables false

/-!
Verification of the SiteScout monitoring script (src/main.py): a shallow
embedding of its verdict parsing, per-site check control flow, batch
orchestration loop, report aggregation and finalization, together with
theorems about the claims of the specification.
-/

/-- Python values produced by json.loads, restricted to the JSON subset the
script can receive: null, booleans, integers, strings, arrays and objects
(dicts with string keys, insertion-ordered, unique keys). -/
inductive Json where
  | null : Json
  | bool (b : Bool) : Json
  | num (n : Int) : Json
  | str (s : String) : Json
  | arr (xs : List Json) : Json
  | obj (kvs : List (String × Json)) : Json

/-- Association-list lookup: the first binding of the key, as in a Python
dict (whose keys are unique). -/
def lookupA {β : Type} : List (String × β) → String → Option β
  | [], _ => none
  | (k1, v) :: rest, k => if k1 = k then some v else lookupA rest k

/-- Python dict assignment d[k] = v: overwrite in place when the key is
present, append otherwise. -/
def setIn {β : Type} : List (String × β) → String → β → List (String × β)
  | [], k, v => [(k, v)]
  | (k1, v1) :: rest, k, v =>
      if k1 = k then (k, v) :: rest else (k1, v1) :: setIn rest k v

/-- Python dict.get with a default value. -/
def pyGetD (kvs : List (String × Json)) (k : String) (d : Json) : Json :=
  match lookupA kvs k with
  | some v => v
  | none => d

/-- Field access on a Json object; none when the value is not an object or
the key is absent. -/
def jGet : Json → String → Option Json
  | Json.obj kvs, k => lookupA kvs k
  | _, _ => none

/-- Python equality of a value against a string literal: true exactly when
the value is that string. -/
def Json.eqStr : Json → String → Bool
  | Json.str s, t => s == t
  | _, _ => false

/-- The single-quote character, used to spell Python exception messages. -/
def squote : String := (Char.ofNat 39).toString

def quoteChar : Char := Char.ofNat 34

def backslashChar : Char := Char.ofNat 92

def lbraceChar : Char := Char.ofNat 123

def rbraceChar : Char := Char.ofNat 125

/-- Drop leading JSON whitespace. -/
def skipWs : List Char → List Char
  | [] => []
  | c :: cs =>
      if c = ' ' ∨ c = Char.ofNat 9 ∨ c = Char.ofNat 10 ∨ c = Char.ofNat 13 then
        skipWs cs
      else c :: cs

/-- Parse the body of a JSON string after the opening quote, returning the
decoded string and the rest of the input.  Escapes cover the sequences the
script can meet in practice; unsupported escapes fail the parse. -/
def parseStringBody : List Char → Option (String × List Char)
  | [] => none
  | c :: cs =>
      if c = quoteChar then some ("", cs)
      else if c = backslashChar then
        match cs with
        | [] => none
        | e :: cs2 =>
            let dec : Option Char :=
              if e = quoteChar then some quoteChar
              else if e = backslashChar then some backslashChar
              else if e = '/' then some '/'
              else if e = 'n' then some (Char.ofNat 10)
              else if e = 't' then some (Char.ofNat 9)
              else if e = 'r' then some (Char.ofNat 13)
              else none
            match dec with
            | none => none
            | some d =>
                match parseStringBody cs2 with
                | some (s, rest) => some (d.toString ++ s, rest)
                | none => none
      else
        match parseStringBody cs with
        | some (s, rest) => some (c.toString ++ s, rest)
        | none => none

/-- Split a maximal run of decimal digits off the front of the input. -/
def takeDigits : List Char → List Char × List Char
  | [] => ([], [])
  | c :: cs =>
      if c.isDigit then
        match takeDigits cs with
        | (ds, rest) => (c :: ds, rest)
      else ([], c :: cs)

def digitsToNat (ds : List Char) : Nat :=
  ds.foldl (fun a c => a * 10 + (c.toNat - 48)) 0

/-- Consume an expected literal character sequence. -/
def stripLit : List Char → List Char → Option (List Char)
  | [], cs => some cs
  | _ :: _, [] => none
  | l :: ls, c :: cs => if c = l then stripLit ls cs else none

/-- Parse a JSON integer (the model covers integer numerals; a fraction or
exponent continuation fails the parse). -/
def parseNum (cs : List Char) : Option (Json × List Char) :=
  match cs with
  | [] => none
  | c :: rest0 =>
      let neg := c = '-'
      let cs1 := if neg then rest0 else c :: rest0
      match takeDigits cs1 with
      | ([], _) => none
      | (ds, rest) =>
          let floatish : Bool :=
            match rest with
            | e :: _ => e == '.' || e == 'e' || e == 'E'
            | [] => false
          if floatish then none
          else
            let n : Int := Int.ofNat (digitsToNat ds)
            some (Json.num (if neg then -n else n), rest)

/-- Build a Python dict from parsed members: successive assignments, so a
duplicate key keeps its first position and its last value. -/
def buildObj (ms : List (String × Json)) : List (String × Json) :=
  ms.foldl (fun m kv => setIn m kv.1 kv.2) []

mutual

/-- Recursive-descent JSON value parser, fuelled by the input length. -/
def parseVal : Nat → List Char → Option (Json × List Char)
  | 0, _ => none
  | Nat.succ fuel, cs0 =>
      match skipWs cs0 with
      | [] => none
      | c :: cs =>
          if c = quoteChar then
            match parseStringBody cs with
            | some (s, rest) => some (Json.str s, rest)
            | none => none
          else if c = '[' then
            match skipWs cs with
            | [] => none
            | d :: rest =>
                if d = ']' then some (Json.arr [], rest)
                else
                  match parseVal fuel (d :: rest) with
                  | some (v, rest2) => parseArrTail fuel rest2 [v]
                  | none => none
          else if c = lbraceChar then
            match skipWs cs with
            | [] => none
            | d :: rest =>
                if d = rbraceChar then some (Json.obj [], rest)
                else
                  match parseMember fuel (d :: rest) with
                  | some (k, v, rest2) => parseObjTail fuel rest2 [(k, v)]
                  | none => none
          else if c = 't' then
            match stripLit [ 'r', 'u', 'e' ] cs with
            | some rest => some (Json.bool true, rest)
            | none => none
          else if c = 'f' then
            match stripLit [ 'a', 'l', 's', 'e' ] cs with
            | some rest => some (Json.bool false, rest)
            | none => none
          else if c = 'n' then
            match stripLit [ 'u', 'l', 'l' ] cs with
            | some rest => some (Json.null, rest)
            | none => none
          else if c = '-' ∨ c.isDigit then parseNum (c :: cs)
          else none

/-- Parse the remaining elements of a non-empty array. -/
def parseArrTail : Nat → List Char → List Json → Option (Json × List Char)
  | 0, _, _ => none
  | Nat.succ fuel, cs, acc =>
      match skipWs cs with
      | [] => none
      | c :: rest =>
          if c = ']' then some (Json.arr acc, rest)
          else if c = ',' then
            match parseVal fuel rest with
            | some (v, rest2) => parseArrTail fuel rest2 (acc ++ [v])
            | none => none
          else none

/-- Parse the remaining members of a non-empty object. -/
def parseObjTail : Nat → List Char → List (String × Json) →
    Option (Json × List Char)
  | 0, _, _ => none
  | Nat.succ fuel, cs, acc =>
      match skipWs cs with
      | [] => none
      | c :: rest =>
          if c = rbraceChar then some (Json.obj (buildObj acc), rest)
          else if c = ',' then
            match parseMember fuel rest with
            | some (k, v, rest2) => parseObjTail fuel rest2 (acc ++ [(k, v)])
            | none => none
          else none

/-- Parse one key-value member of an object. -/
def parseMember : Nat → List Char → Option (String × Json × List Char)
  | 0, _ => none
  | Nat.succ fuel, cs =>
      match skipWs cs with
      | [] => none
      | c :: rest =>
          if c = quoteChar then
            match parseStringBody rest with
            | some (k, rest2) =>
                match skipWs rest2 with
                | [] => none
                | d :: rest3 =>
                    if d = ':' then
                      match parseVal fuel rest3 with
                      | some (v, rest4) => some (k, v, rest4)
                      | none => none
                    else none
            | none => none
          else none

end

/-- Model of json.loads: parse one JSON value and require only whitespace
after it; none models a raised json.JSONDecodeError. -/
def json_loads (s : String) : Option Json :=
  match parseVal (s.length + 1) s.data with
  | some (v, rest) => if (skipWs rest).isEmpty then some v else none
  | none => none

/-- The Python type name of a value, as it appears in error messages. -/
def pyTypeName : Json → String
  | Json.null => "NoneType"
  | Json.bool _ => "bool"
  | Json.num _ => "int"
  | Json.str _ => "str"
  | Json.arr _ => "list"
  | Json.obj _ => "dict"

/-- Message of the AttributeError raised by calling .get on a non-dict
value returned by json.loads. -/
def attrErrMsg (v : Json) : String :=
  squote ++ pyTypeName v ++ squote ++ " object has no attribute " ++
    squote ++ "get" ++ squote

/-- The diagnostic text of the parse-failure branch (src/main.py line 133). -/
def invalidFmt (last_message : String) : String :=
  "Invalid response format: " ++ last_message

/-- Environment of one check_website call: which of its external calls
raise (with the exception message) and the final agent output otherwise.
agentOutput models result.final_result() if result else the empty string. -/
structure CheckEnv where
  ctorExc : Option String
  startExc : Option String
  newTabExc : Option String
  agentExc : Option String
  agentOutput : String
  pageCloseExc : Option String
  closeExc : Option String

/-- Resolution of one site check task as seen by asyncio.gather with
return_exceptions=True: either a captured exception or the returned
(name, outcome) pair. -/
inductive CheckResult where
  | exc (msg : String) : CheckResult
  | ok (name : String) (outcome : Json) : CheckResult

/-- The verdict derivation inlined in check_website (src/main.py lines
118-134): json.loads on the agent message, then .get field access.  A
json.JSONDecodeError is handled and yields the invalid-format outcome; on a
non-dict value the .get call raises an AttributeError, modelled as
Except.error since it escapes this region. -/
def verdictOf (url last_message : String) : Except String Json :=
  match json_loads last_message with
  | none =>
      Except.ok (Json.obj [("status", Json.str "DOWN"), ("url", Json.str url),
        ("error", Json.str (invalidFmt last_message))])
  | some (Json.obj analysis) =>
      let is_up := Json.eqStr (pyGetD analysis "status" Json.null) "UP"
      let status := if is_up then "UP" else "DOWN"
      Except.ok (Json.obj [("status", Json.str status), ("url", Json.str url),
        ("error",
          if is_up then Json.null
          else pyGetD analysis "reason" (Json.str "No reason provided"))])
  | some v => Except.error (attrErrMsg v)

/-- The try body of check_website (src/main.py lines 105-136): session
start, tab open, agent run, verdict derivation.  The inner finally runs
page.close, whose exception replaces the pending result. -/
def checkTryBody (env : CheckEnv) (url name : String) :
    Except String (String × Json) :=
  match env.startExc with
  | some m => Except.error m
  | none =>
      match env.newTabExc with
      | some m => Except.error m
      | none =>
          let innerBody : Except String (String × Json) :=
            match env.agentExc with
            | some m => Except.error m
            | none =>
                match verdictOf url env.agentOutput with
                | Except.ok out => Except.ok (name, out)
                | Except.error m => Except.error m
          match env.pageCloseExc with
          | some m => Except.error m
          | none => innerBody

/-- Translation of check_website (src/main.py lines 101-145).  The
BrowserSession constructor runs before the try, so its exception escapes;
the outer except Exception converts an exception from the try body into a
DOWN outcome; the outer finally runs browser_session.close, whose exception
replaces the pending result. -/
def check_website (env : CheckEnv) (url name : String) : CheckResult :=
  match env.ctorExc with
  | some m => CheckResult.exc m
  | none =>
      let afterExcept : String × Json :=
        match checkTryBody env url name with
        | Except.ok r => r
        | Except.error m =>
            (name, Json.obj [("status", Json.str "DOWN"),
              ("url", Json.str url), ("error", Json.str m)])
      match env.closeExc with
      | some m => CheckResult.exc m
      | none => CheckResult.ok afterExcept.1 afterExcept.2

/-- A catalog entry as flattened by main: (name, url, category). -/
abbrev Site := String × String × String

/-- The per-category inner dict of the report: site name to outcome. -/
abbrev InnerDict := List (String × Json)

/-- The categories mapping of the report. -/
abbrev Cats := List (String × InnerDict)

/-- The static WEBSITES catalog (src/main.py lines 28-99). -/
def WEBSITES : List (String × List (String × String)) := [
  ("Entertainment & Media", [
    ("Spotify", "https://open.spotify.com"),
    ("Snapchat", "https://www.snapchat.com"),
    ("Discord", "https://discord.com"),
    ("FuboTV", "https://www.fubo.tv"),
    ("Vimeo", "https://vimeo.com")]),
  ("Gaming", [
    ("Pokémon Go", "https://pokemongolive.com"),
    ("Pokemon TCG", "https://www.pokemon.com/us/pokemon-tcg"),
    ("Phasmophobia", "https://store.steampowered.com/app/739630/Phasmophobia"),
    ("Rocket League", "https://www.rocketleague.com"),
    ("Roblox", "https://www.roblox.com"),
    ("Dragon Ball", "https://www.toei-animation.com/dragonball"),
    ("Marvel Contest of Champions", "https://playcontestofchampions.com")]),
  ("AI & Technology Platforms", [
    ("CharacterAI", "https://character.ai"),
    ("Anthropic", "https://www.anthropic.com"),
    ("OpenAI", "https://openai.com"),
    ("Cursor", "https://www.cursor.com"),
    ("Google Gemini", "https://gemini.google.com")]),
  ("Google Services", [
    ("Google", "https://www.google.com"),
    ("Google Cloud", "https://cloud.google.com"),
    ("Google Meet", "https://meet.google.com"),
    ("Gmail", "https://gmail.com"),
    ("Google Nest", "https://store.google.com/category/connected_home"),
    ("Google Maps", "https://maps.google.com")]),
  ("Cloud & Infrastructure", [
    ("Amazon Web Services", "https://aws.amazon.com"),
    ("Microsoft Azure", "https://azure.microsoft.com"),
    ("Microsoft 365", "https://www.microsoft365.com"),
    ("Cloudflare", "https://www.cloudflare.com"),
    ("Box", "https://www.box.com"),
    ("NPM", "https://www.npmjs.com")]),
  ("E-commerce & Business", [
    ("Etsy", "https://www.etsy.com"),
    ("Shopify", "https://www.shopify.com"),
    ("DoorDash", "https://www.doordash.com"),
    ("Wayfair", "https://www.wayfair.com")]),
  ("Business Tools & Services", [
    ("UPS", "https://www.ups.com"),
    ("USPS", "https://www.usps.com"),
    ("T-Mobile", "https://www.t-mobile.com"),
    ("Mailchimp", "https://mailchimp.com"),
    ("Dialpad", "https://www.dialpad.com"),
    ("Zoom", "https://zoom.us"),
    ("Calendly", "https://calendly.com")]),
  ("Smart Home & IoT", [
    ("Ecobee", "https://www.ecobee.com"),
    ("Fitbit", "https://www.fitbit.com")]),
  ("Specialized Business Software", [
    ("HighLevel", "https://www.gohighlevel.com"),
    ("Clover POS Systems", "https://www.clover.com"),
    ("Procore", "https://www.procore.com")]),
  ("Education & Development", [
    ("Khan Academy", "https://www.khanacademy.org"),
    ("DeviantArt", "https://www.deviantart.com")]),
  ("Finance & Banking", [
    ("Dave", "https://dave.com")])]

/-- The flattened check list built by the nested loop of main
(src/main.py lines 182-185). -/
def all_checks : List Site :=
  WEBSITES.foldl
    (fun acc cw => acc ++ cw.2.map (fun w => (w.1, w.2, cw.1))) []

def batch_size : Nat := 20

/-- The batches produced by slicing with range(0, len, bs)
(src/main.py lines 187-188). -/
def batchesFrom {α : Type} (l : List α) (bs : Nat) : List (List α) :=
  (List.range ((l.length + bs - 1) / bs)).map
    (fun k => (l.drop (k * bs)).take bs)

def batches : List (List Site) := batchesFrom all_checks batch_size

/-- process_batch (src/main.py lines 147-152): one check task per batch
entry, gathered with captured exceptions; the per-site behaviour is drawn
from envOf.  A batch entry is (name, url, category) and check_website is
called with (url, name). -/
def process_batch (envOf : Site → CheckEnv) (batch : List Site) :
    List CheckResult :=
  batch.map (fun s => check_website (envOf s) s.2.1 s.1)

/-- One iteration of the merge loop of main (src/main.py lines 191-203):
ensure the category dict exists, then store either the synthesized DOWN
outcome for a captured exception or the returned (name, data) pair, keyed
by the returned name. -/
def mergeResult (cats : Cats) (site : Site) (r : CheckResult) : Cats :=
  match site with
  | (name, url, category) =>
      let inner := (lookupA cats category).getD []
      match r with
      | CheckResult.exc m =>
          setIn cats category (setIn inner name
            (Json.obj [("status", Json.str "DOWN"), ("url", Json.str url),
              ("error", Json.str m)]))
      | CheckResult.ok n data => setIn cats category (setIn inner n data)

/-- The zip-and-merge over one batch and its gathered results. -/
def mergeBatch (cats : Cats) (batch : List Site) (rs : List CheckResult) :
    Cats :=
  (batch.zip rs).foldl (fun c p => mergeResult c p.1 p.2) cats

/-- The categories mapping after the completed batch loop of main
(src/main.py lines 186-205), as a function of the per-site behaviour. -/
def runChecks (envOf : Site → CheckEnv) : Cats :=
  batches.foldl
    (fun cats batch => mergeBatch cats batch (process_batch envOf batch)) []

/-- The value the completed run stores for one site: the synthesized DOWN
outcome when its task resolved to a captured exception, the returned data
otherwise. -/
def outcomeOf (envOf : Site → CheckEnv) (s : Site) : Json :=
  match check_website (envOf s) s.2.1 s.1 with
  | CheckResult.exc m =>
      Json.obj [("status", Json.str "DOWN"), ("url", Json.str s.2.1),
        ("error", Json.str m)]
  | CheckResult.ok _ data => data

/-- Environment of one run of main: whether the ChatOllama construction
raises, the per-site check behaviour, and whether each finalization step
raises (opening website_status.json for writing, json.dump, the summary
print). -/
structure MainEnv where
  llmInitExc : Option String
  envOf : Site → CheckEnv
  openExc : Option String
  dumpExc : Option String
  printExc : Option String

/-- How main terminates: a normal return or a propagating exception. -/
inductive MainResult where
  | normal : MainResult
  | raised (msg : String) : MainResult

/-- Externally visible effects of the finalization block: whether the
output file was opened for writing (truncating it), the categories value
json.dump serialized into it, and whether the summary was printed. -/
structure FinalState where
  fileOpened : Bool
  reportWritten : Option Cats
  summaryPrinted : Bool

/-- Message of the UnboundLocalError raised when the finally block reads
the local variable results before its assignment ran (Python 3.11 text). -/
def unboundLocalMsg : String :=
  "cannot access local variable " ++ squote ++ "results" ++ squote ++
    " where it is not associated with a value"

/-- The finally block of main (src/main.py lines 209-221), given whether
the local variable results was ever assigned.  The steps run in order with
no individual exception capture: open, dump, print; the first exception
aborts the rest and propagates. -/
def finalize (env : MainEnv) (resultsVar : Option Cats) :
    FinalState × Option String :=
  match env.openExc with
  | some m =>
      ({ fileOpened := false, reportWritten := none, summaryPrinted := false },
        some m)
  | none =>
      match resultsVar with
      | none =>
          ({ fileOpened := true, reportWritten := none,
             summaryPrinted := false }, some unboundLocalMsg)
      | some cats =>
          match env.dumpExc with
          | some m =>
              ({ fileOpened := true, reportWritten := none,
                 summaryPrinted := false }, some m)
          | none =>
              match env.printExc with
              | some m =>
                  ({ fileOpened := true, reportWritten := some cats,
                     summaryPrinted := false }, some m)
              | none =>
                  ({ fileOpened := true, reportWritten := some cats,
                     summaryPrinted := true }, none)

/-- Translation of main (src/main.py lines 154-221).  The try body binds
results only after the ChatOllama construction succeeds; the batch loop
itself resolves every task to a value.  The finally block always runs and
an exception it raises replaces the pending one. -/
def mainRun (env : MainEnv) : FinalState × MainResult :=
  let body : Option Cats × Option String :=
    match env.llmInitExc with
    | some m => (none, some m)
    | none => (some (runChecks env.envOf), none)
  match finalize env body.1 with
  | (st, some m) => (st, MainResult.raised m)
  | (st, none) =>
      match body.2 with
      | some m => (st, MainResult.raised m)
      | none => (st, MainResult.normal)

/-- How the top-level script run ends: asyncio.run(main()) returning or
raising, or a user interrupt. -/
inductive RunEnd where
  | finished (r : MainResult) : RunEnd
  | interrupted : RunEnd

/-- Process exit status of the entry point (src/main.py lines 223-230):
KeyboardInterrupt is caught and the script falls off its end (status 0), an
Exception is logged and sys.exit(1) runs, a normal return exits 0. -/
def scriptExitCode : RunEnd → Nat
  | RunEnd.finished MainResult.normal => 0
  | RunEnd.finished (MainResult.raised _) => 1
  | RunEnd.interrupted => 0

/-- Observable scheduler events of a run: the start of the agent-driven
check of a site, and the resolution of its outcome. -/
inductive Event where
  | invoke (s : Site) : Event
  | resolve (s : Site) : Event
deriving DecidableEq

def Event.site : Event → Site
  | Event.invoke s => s
  | Event.resolve s => s

/-- The event trace of a run of the batch loop: await process_batch
completes one batch entirely before the loop continues, so the trace is the
concatenation of per-batch segments; the interleaving inside a segment is
the cooperative scheduler's choice, supplied as a parameter. -/
def runTrace (sched : Nat → List Event) : List Event :=
  ((List.range batches.length).map sched).flatten

/-- Nested report lookup: the outcome stored for site name n under
category c. -/
def lookup2 (cats : Cats) (c n : String) : Option Json :=
  (lookupA cats c).bind (fun inner => lookupA inner n)

/-- The merge of a single site's resolved check into the report. -/
def stepSite (envOf : Site → CheckEnv) (cats : Cats) (s : Site) : Cats :=
  mergeResult cats s (check_website (envOf s) s.2.1 s.1)

/-- Shape of every outcome dict the run stores: exactly the keys status,
url, error in that order, with status the string UP or DOWN. -/
def ShapedOutcome (v : Json) : Prop :=
  ∃ st url er,
    v = Json.obj [("status", Json.str st), ("url", Json.str url),
      ("error", er)] ∧ (st = "UP" ∨ st = "DOWN")

/-- Every outcome reachable in the report is shaped. -/
def AllShaped (cats : Cats) : Prop :=
  ∀ c i, lookupA cats c = some i →
    ∀ n v, lookupA i n = some v → ShapedOutcome v

/-- Every inner dict of the report has distinct keys. -/
def InnersNodup (cats : Cats) : Prop :=
  ∀ c i, lookupA cats c = some i → (i.map Prod.fst).Nodup

/-- A check environment in which the BrowserSession constructor raises, so
the whole coroutine resolves to a captured exception. -/
def boomEnv : CheckEnv :=
  { ctorExc := some "boom", startExc := none, newTabExc := none,
    agentExc := none, agentOutput := "", pageCloseExc := none,
    closeExc := none }

def boomEnvOf : Site → CheckEnv := fun _ => boomEnv

/-- A check environment in which every external call succeeds and the agent
returns the given final output. -/
def quietEnv (s : String) : CheckEnv :=
  { ctorExc := none, startExc := none, newTabExc := none,
    agentExc := none, agentOutput := s, pageCloseExc := none,
    closeExc := none }

def jsonUpOk : String := "\x7b\"status\":\"UP\",\"reason\":\"ok\"\x7d"

def jsonDown500 : String := "\x7b\"status\":\"DOWN\",\"reason\":\"500 error\"\x7d"

def jsonDownBare : String := "\x7b\"status\":\"DOWN\"\x7d"

def jsonDownNullReason : String :=
  "\x7b\"status\": \"DOWN\", \"reason\": null\x7d"

/-- Run environment in which the ChatOllama construction raises before the
results variable is bound. -/
def envLlmFail : MainEnv :=
  { llmInitExc := some "Ollama connection refused", envOf := boomEnvOf,
    openExc := none, dumpExc := none, printExc := none }

/-- Run environment in which the report write (json.dump) raises during
finalization. -/
def envDumpFail : MainEnv :=
  { llmInitExc := none, envOf := boomEnvOf, openExc := none,
    dumpExc := some "disk full", printExc := none }

/-- A concrete cooperative schedule: each batch runs its sites in order,
invoking and resolving each. -/
def schedW : Nat → List Event :=
  fun k => (batches.getD k []).flatMap
    (fun s => [Event.invoke s, Event.resolve s])

/-- The outcome the boom environment run stores for the Dave site. -/
def outDave : Json :=
  Json.obj [("status", Json.str "DOWN"), ("url", Json.str "https://dave.com"),
    ("error", Json.str "boom")]

def innerFB : InnerDict := [("Dave", outDave)]

theorem lookupA_setIn_self {β : Type} (m : List (String × β)) (k : String)
    (v : β) : lookupA (setIn m k v) k = some v := by
  induction m with
  | nil => simp [setIn, lookupA]
  | cons p rest ih =>
      obtain ⟨k1, v1⟩ := p
      by_cases h : k1 = k
      · subst h; simp [setIn, lookupA]
      · simp [setIn, lookupA, h, ih]

theorem lookupA_setIn_ne {β : Type} (m : List (String × β)) (k k1 : String)
    (v : β) (h : k1 ≠ k) :
    lookupA (setIn m k v) k1 = lookupA m k1 := by
  induction m with
  | nil => simp [setIn, lookupA, Ne.symm h]
  | cons p rest ih =>
      obtain ⟨k2, v2⟩ := p
      by_cases h2 : k2 = k
      · subst h2; simp [setIn, lookupA, Ne.symm h]
      · simp [setIn, lookupA, h2, ih]

theorem keys_setIn {β : Type} (m : List (String × β)) (k : String) (v : β) :
    (setIn m k v).map Prod.fst =
      if k ∈ m.map Prod.fst then m.map Prod.fst
      else m.map Prod.fst ++ [k] := by
  induction m with
  | nil => simp [setIn]
  | cons p rest ih =>
      obtain ⟨k1, v1⟩ := p
      by_cases h : k1 = k
      · subst h; simp [setIn]
      · by_cases hm : k ∈ rest.map Prod.fst
        · simp [setIn, h, ih, hm, Ne.symm h]
        · simp [setIn, h, ih, hm, Ne.symm h]

theorem keysNodup_setIn {β : Type} (m : List (String × β)) (k : String)
    (v : β) (h : (m.map Prod.fst).Nodup) :
    ((setIn m k v).map Prod.fst).Nodup := by
  rw [keys_setIn]
  by_cases hm : k ∈ m.map Prod.fst
  · simpa [hm] using h
  · simp only [hm, if_false]
    simp [List.nodup_append, h, hm]

theorem mem_keys_of_lookupA {β : Type} {m : List (String × β)} {k : String}
    {v : β} (h : lookupA m k = some v) : k ∈ m.map Prod.fst := by
  induction m with
  | nil => simp [lookupA] at h
  | cons p rest ih =>
      obtain ⟨k1, v1⟩ := p
      by_cases h1 : k1 = k
      · subst h1; simp
      · simp only [lookupA, h1, if_false] at h
        simpa using Or.inr (ih h)

theorem lookupA_setIn_cases {β : Type} {m : List (String × β)}
    {k k1 : String} {v w : β} (h : lookupA (setIn m k v) k1 = some w) :
    (k1 = k ∧ w = v) ∨ lookupA m k1 = some w := by
  by_cases e : k1 = k
  · subst e
    rw [lookupA_setIn_self] at h
    exact Or.inl ⟨rfl, (Option.some.inj h).symm⟩
  · rw [lookupA_setIn_ne m k k1 v e] at h
    exact Or.inr h

theorem verdictOf_spec (url s : String) (out : Json)
    (h : verdictOf url s = Except.ok out) :
    ∃ st er,
      out = Json.obj [("status", Json.str st), ("url", Json.str url),
        ("error", er)] ∧
      ((st = "UP" ∧ er = Json.null) ∨
       (st = "DOWN" ∧ (er ≠ Json.null ∨
         ∃ kvs, json_loads s = some (Json.obj kvs) ∧
           lookupA kvs "reason" = some Json.null))) := by
  rcases hj : json_loads s with _ | v
  · simp only [verdictOf, hj, Except.ok.injEq] at h
    exact ⟨"DOWN", Json.str (invalidFmt s), h.symm,
      Or.inr ⟨rfl, Or.inl (by simp)⟩⟩
  · cases v with
    | null => simp [verdictOf, hj] at h
    | bool b => simp [verdictOf, hj] at h
    | num n => simp [verdictOf, hj] at h
    | str s2 => simp [verdictOf, hj] at h
    | arr xs => simp [verdictOf, hj] at h
    | obj analysis =>
        rcases hb : Json.eqStr (pyGetD analysis "status" Json.null) "UP"
        · simp only [verdictOf, hj, hb, Bool.false_eq_true, if_false,
            Except.ok.injEq] at h
          by_cases her :
              pyGetD analysis "reason" (Json.str "No reason provided") =
                Json.null
          · refine ⟨"DOWN", _, h.symm, Or.inr ⟨rfl, Or.inr ⟨analysis, rfl, ?_⟩⟩⟩
            unfold pyGetD at her
            rcases hl : lookupA analysis "reason" with _ | w
            · rw [hl] at her
              exact absurd her (by simp)
            · rw [hl] at her
              rw [← her]
          · exact ⟨"DOWN", _, h.symm, Or.inr ⟨rfl, Or.inl her⟩⟩
        · simp only [verdictOf, hj, hb, if_true, Except.ok.injEq] at h
          exact ⟨"UP", Json.null, h.symm, Or.inl ⟨rfl, rfl⟩⟩

theorem checkTryBody_ok (env : CheckEnv) (url name : String)
    (r : String × Json) (h : checkTryBody env url name = Except.ok r) :
    r.1 = name ∧ verdictOf url env.agentOutput = Except.ok r.2 := by
  obtain ⟨ec, es, et, ea, ao, ep, ecl⟩ := env
  cases es with
  | some m => simp [checkTryBody] at h
  | none =>
      cases et with
      | some m => simp [checkTryBody] at h
      | none =>
          cases ep with
          | some m => simp [checkTryBody] at h
          | none =>
              cases ea with
              | some m => simp [checkTryBody] at h
              | none =>
                  rcases hv : verdictOf url ao with m | out
                  · simp [checkTryBody, hv] at h
                  · simp only [checkTryBody, hv, Except.ok.injEq] at h
                    subst h
                    exact ⟨rfl, rfl⟩

theorem check_website_spec (env : CheckEnv) (url name n : String)
    (out : Json) (h : check_website env url name = CheckResult.ok n out) :
    n = name ∧ ∃ st er,
      out = Json.obj [("status", Json.str st), ("url", Json.str url),
        ("error", er)] ∧
      ((st = "UP" ∧ er = Json.null) ∨
       (st = "DOWN" ∧ (er ≠ Json.null ∨
         ∃ kvs, json_loads env.agentOutput = some (Json.obj kvs) ∧
           lookupA kvs "reason" = some Json.null))) := by
  rcases hc : env.ctorExc with _ | m
  · rcases hcl : env.closeExc with _ | m
    · rcases htb : checkTryBody env url name with m | r
      · simp only [check_website, hc, hcl, htb, CheckResult.ok.injEq] at h
        obtain ⟨h1, h2⟩ := h
        exact ⟨h1.symm, "DOWN", Json.str m, h2.symm,
          Or.inr ⟨rfl, Or.inl (by simp)⟩⟩
      · obtain ⟨hr1, hr2⟩ := checkTryBody_ok env url name r htb
        simp only [check_website, hc, hcl, htb, CheckResult.ok.injEq] at h
        obtain ⟨h1, h2⟩ := h
        obtain ⟨st, er, hsh, hcase⟩ := verdictOf_spec url env.agentOutput r.2 hr2
        exact ⟨h1.symm.trans hr1, st, er, h2.symm.trans hsh, hcase⟩
    · simp [check_website, hc, hcl] at h
  · simp [check_website, hc] at h

theorem lookup2_stepSite_self (envOf : Site → CheckEnv) (cats : Cats)
    (s : Site) :
    lookup2 (stepSite envOf cats s) s.2.2 s.1 = some (outcomeOf envOf s) := by
  obtain ⟨name, url, category⟩ := s
  rcases hr : check_website (envOf (name, url, category)) url name with m | ⟨n2, data⟩
  · simp only [lookup2, stepSite, mergeResult, outcomeOf, hr]
    rw [lookupA_setIn_self]
    simp only [Option.some_bind]
    rw [lookupA_setIn_self]
  · have hn := (check_website_spec _ _ _ _ _ hr).1
    subst hn
    simp only [lookup2, stepSite, mergeResult, outcomeOf, hr]
    rw [lookupA_setIn_self]
    simp only [Option.some_bind]
    rw [lookupA_setIn_self]

theorem lookup2_stepSite_ne (envOf : Site → CheckEnv) (cats : Cats)
    (s : Site) (c n : String) (h : ¬(c = s.2.2 ∧ n = s.1)) :
    lookup2 (stepSite envOf cats s) c n = lookup2 cats c n := by
  obtain ⟨name, url, category⟩ := s
  by_cases hc : c = category
  · subst hc
    have hn : n ≠ name := fun he => h ⟨rfl, he⟩
    rcases hr : check_website (envOf (name, url, c)) url name with m | ⟨n2, data⟩
    · simp only [lookup2, stepSite, mergeResult, hr]
      rw [lookupA_setIn_self]
      simp only [Option.some_bind]
      rw [lookupA_setIn_ne _ _ _ _ hn]
      rcases hcat : lookupA cats c with _ | i
      · simp [lookupA]
      · simp
    · have hn2 := (check_website_spec _ _ _ _ _ hr).1
      subst hn2
      simp only [lookup2, stepSite, mergeResult, hr]
      rw [lookupA_setIn_self]
      simp only [Option.some_bind]
      rw [lookupA_setIn_ne _ _ _ _ hn]
      rcases hcat : lookupA cats c with _ | i
      · simp [lookupA]
      · simp
  · rcases hr : check_website (envOf (name, url, category)) url name with m | ⟨n2, data⟩
    · simp only [lookup2, stepSite, mergeResult, hr]
      rw [lookupA_setIn_ne _ _ _ _ hc]
    · simp only [lookup2, stepSite, mergeResult, hr]
      rw [lookupA_setIn_ne _ _ _ _ hc]

theorem lookup2_foldl_ne (envOf : Site → CheckEnv) :
    ∀ (sites : List Site) (cats : Cats) (c n : String),
      (∀ s ∈ sites, ¬(c = s.2.2 ∧ n = s.1)) →
      lookup2 (sites.foldl (stepSite envOf) cats) c n = lookup2 cats c n := by
  intro sites
  induction sites with
  | nil => intro cats c n h; rfl
  | cons x rest ih =>
      intro cats c n h
      rw [List.foldl_cons]
      rw [ih _ c n (fun s hs => h s (List.mem_cons_of_mem _ hs))]
      exact lookup2_stepSite_ne envOf cats x c n (h x (List.mem_cons_self _ _))

theorem lookup2_foldl_mem (envOf : Site → CheckEnv) :
    ∀ (sites : List Site) (cats : Cats) (s : Site),
      (sites.map (fun t => (t.2.2, t.1))).Nodup → s ∈ sites →
      lookup2 (sites.foldl (stepSite envOf) cats) s.2.2 s.1 =
        some (outcomeOf envOf s) := by
  intro sites
  induction sites with
  | nil => intro cats s hnd hs; simp at hs
  | cons x rest ih =>
      intro cats s hnd hs
      rw [List.map_cons, List.nodup_cons] at hnd
      rw [List.foldl_cons]
      rcases List.mem_cons.1 hs with he | hmem
      · subst he
        have hnotin : ∀ t ∈ rest, ¬(s.2.2 = t.2.2 ∧ s.1 = t.1) := by
          intro t ht hcontra
          exact hnd.1 (List.mem_map.2 ⟨t, ht, by rw [← hcontra.1, ← hcontra.2]⟩)
        rw [lookup2_foldl_ne envOf rest _ _ _ hnotin]
        exact lookup2_stepSite_self envOf cats s
      · exact ih _ s hnd.2 hmem

theorem mergeBatch_process (envOf : Site → CheckEnv) :
    ∀ (batch : List Site) (cats : Cats),
      mergeBatch cats batch (process_batch envOf batch) =
        batch.foldl (stepSite envOf) cats := by
  intro batch
  induction batch with
  | nil => intro cats; rfl
  | cons x rest ih =>
      intro cats
      simp only [process_batch, List.map_cons, mergeBatch,
        List.zip_cons_cons, List.foldl_cons]
      exact ih (stepSite envOf cats x)

theorem foldl_mergeBatch_eq (envOf : Site → CheckEnv) :
    ∀ (L : List (List Site)) (init : Cats),
      L.foldl (fun cats b => mergeBatch cats b (process_batch envOf b))
          init =
        L.foldl (fun cats b => b.foldl (stepSite envOf) cats) init := by
  intro L
  induction L with
  | nil => intro init; rfl
  | cons b L2 ih =>
      intro init
      simp only [List.foldl_cons]
      rw [mergeBatch_process]
      exact ih _

theorem runChecks_eq_foldl (envOf : Site → CheckEnv) :
    runChecks envOf = all_checks.foldl (stepSite envOf) [] := by
  have hflat : batches.flatten = all_checks := by rfl
  calc runChecks envOf
      = batches.foldl (fun cats b => b.foldl (stepSite envOf) cats) [] :=
        foldl_mergeBatch_eq envOf batches []
    _ = (batches.flatten).foldl (stepSite envOf) [] :=
        (List.foldl_flatten _ _ _).symm
    _ = all_checks.foldl (stepSite envOf) [] := by rw [hflat]

theorem innersNodup_setIn2 (cats : Cats) (category k : String) (v : Json)
    (h : InnersNodup cats) :
    InnersNodup (setIn cats category
      (setIn ((lookupA cats category).getD []) k v)) := by
  intro c i hi
  rcases lookupA_setIn_cases hi with ⟨hce, hie⟩ | hold
  · subst hie
    apply keysNodup_setIn
    rcases hcat : lookupA cats category with _ | i0
    · simp
    · simpa using h category i0 hcat
  · exact h c i hold

theorem innersNodup_stepSite (envOf : Site → CheckEnv) (cats : Cats)
    (s : Site) (h : InnersNodup cats) :
    InnersNodup (stepSite envOf cats s) := by
  obtain ⟨name, url, category⟩ := s
  rcases hr : check_website (envOf (name, url, category)) url name with m | ⟨n2, data⟩
  · simp only [stepSite, mergeResult, hr]
    exact innersNodup_setIn2 cats category name _ h
  · simp only [stepSite, mergeResult, hr]
    exact innersNodup_setIn2 cats category n2 data h

theorem innersNodup_foldl (envOf : Site → CheckEnv) :
    ∀ (sites : List Site) (cats : Cats), InnersNodup cats →
      InnersNodup (sites.foldl (stepSite envOf) cats) := by
  intro sites
  induction sites with
  | nil => intro cats h; exact h
  | cons x rest ih =>
      intro cats h
      rw [List.foldl_cons]
      exact ih _ (innersNodup_stepSite envOf cats x h)

theorem innersNodup_runChecks (envOf : Site → CheckEnv) :
    InnersNodup (runChecks envOf) := by
  rw [runChecks_eq_foldl]
  apply innersNodup_foldl
  intro c i hi
  simp [lookupA] at hi

theorem allShaped_setIn2 (cats : Cats) (category k : String) (v : Json)
    (hv : ShapedOutcome v) (h : AllShaped cats) :
    AllShaped (setIn cats category
      (setIn ((lookupA cats category).getD []) k v)) := by
  intro c i hi n w hw
  rcases lookupA_setIn_cases hi with ⟨hce, hie⟩ | hold
  · subst hie
    rcases lookupA_setIn_cases hw with ⟨hne, hwe⟩ | hold2
    · subst hwe; exact hv
    · rcases hcat : lookupA cats category with _ | i0
      · rw [hcat] at hold2
        simp [lookupA] at hold2
      · rw [hcat] at hold2
        exact h category i0 hcat n w hold2
  · exact h c i hold n w hw

theorem allShaped_stepSite (envOf : Site → CheckEnv) (cats : Cats)
    (s : Site) (h : AllShaped cats) : AllShaped (stepSite envOf cats s) := by
  obtain ⟨name, url, category⟩ := s
  rcases hr : check_website (envOf (name, url, category)) url name with m | ⟨n2, data⟩
  · simp only [stepSite, mergeResult, hr]
    exact allShaped_setIn2 cats category name _
      ⟨"DOWN", url, Json.str m, rfl, Or.inr rfl⟩ h
  · simp only [stepSite, mergeResult, hr]
    obtain ⟨_, st, er, hsh, hcase⟩ := check_website_spec _ _ _ _ _ hr
    exact allShaped_setIn2 cats category n2 data
      ⟨st, url, er, hsh, hcase.imp And.left And.left⟩ h

theorem allShaped_foldl (envOf : Site → CheckEnv) :
    ∀ (sites : List Site) (cats : Cats), AllShaped cats →
      AllShaped (sites.foldl (stepSite envOf) cats) := by
  intro sites
  induction sites with
  | nil => intro cats h; exact h
  | cons x rest ih =>
      intro cats h
      rw [List.foldl_cons]
      exact ih _ (allShaped_stepSite envOf cats x h)

theorem allShaped_runChecks (envOf : Site → CheckEnv) :
    AllShaped (runChecks envOf) := by
  rw [runChecks_eq_foldl]
  apply allShaped_foldl
  intro c i hi
  simp [lookupA] at hi

theorem batch_disjoint :
    ∀ (i j : Nat) (bi bj : List Site), i < j →
      batches[i]? = some bi → batches[j]? = some bj →
      ∀ s ∈ bi, s ∉ bj := by
  have hnd : batches.flatten.Nodup := by
    rw [show batches.flatten = all_checks from rfl]
    decide
  have hpw := (List.nodup_flatten.1 hnd).2
  intro i j bi bj hij hbi hbj s hsi hsj
  obtain ⟨hi, hbi⟩ := List.getElem?_eq_some_iff.1 hbi
  obtain ⟨hj, hbj⟩ := List.getElem?_eq_some_iff.1 hbj
  have hd := List.pairwise_iff_getElem.1 hpw i j hi hj hij
  rw [hbi, hbj] at hd
  exact hd hsi hsj

theorem attrErrMsg_ne_invalidFmt (v : Json) (s : String) :
    attrErrMsg v ≠ invalidFmt s := by
  intro h
  have h1 : (attrErrMsg v).data.head? = (invalidFmt s).data.head? := by
    rw [h]
  have h2 : (invalidFmt s).data.head? = some (Char.ofNat 73) := by
    rw [invalidFmt, String.data_append]
    rfl
  have h3 : (attrErrMsg v).data.head? = some (Char.ofNat 39) := by
    cases v <;> rfl
  rw [h2, h3] at h1
  exact absurd h1 (by decide)

/-- Claim C2: the verdict derivation of check_website as a function of the
agent final output string: a JSON UP verdict yields an UP outcome with null
error; a JSON DOWN verdict yields a DOWN outcome carrying the reason; text
that fails JSON parsing yields a DOWN outcome with the invalid-format
diagnostic; a DOWN verdict with no reason field yields the default reason
text. -/
theorem c2_verdict_cases (url : String) :
    verdictOf url jsonUpOk = Except.ok (Json.obj
      [("status", Json.str "UP"), ("url", Json.str url),
        ("error", Json.null)]) ∧
    verdictOf url jsonDown500 = Except.ok (Json.obj
      [("status", Json.str "DOWN"), ("url", Json.str url),
        ("error", Json.str "500 error")]) ∧
    verdictOf url "not json" = Except.ok (Json.obj
      [("status", Json.str "DOWN"), ("url", Json.str url),
        ("error", Json.str "Invalid response format: not json")]) ∧
    verdictOf url jsonDownBare = Except.ok (Json.obj
      [("status", Json.str "DOWN"), ("url", Json.str url),
        ("error", Json.str "No reason provided")]) :=
  ⟨rfl, rfl, rfl, rfl⟩

/-- Claim C3, behaviour of the code at the failing input: when the
ChatOllama construction raises before the local variable results is bound,
the finally block opens website_status.json for writing (truncating it) and
then raises an UnboundLocalError, so no report content is written, the
summary is not printed, and the run fails with the UnboundLocalError
instead of finishing its finalization. -/
theorem c3_setup_failure_finalization_crash :
    mainRun envLlmFail =
      ({ fileOpened := true, reportWritten := none,
         summaryPrinted := false }, MainResult.raised unboundLocalMsg) :=
  rfl

/-- Claim C7: the entry point exits 0 on normal completion of main, exits 1
after an uncaught exception, and exits 0 on a user interrupt. -/
theorem c7_exit_codes :
    scriptExitCode (RunEnd.finished MainResult.normal) = 0 ∧
    (∀ m, scriptExitCode (RunEnd.finished (MainResult.raised m)) = 1) ∧
    scriptExitCode RunEnd.interrupted = 0 :=
  ⟨rfl, fun _ => rfl, rfl⟩

/-- Claim C8: every value returned by check_website carries the identity of
its originating site: the returned name is the name argument and the
outcome url field is the url argument, on every path. -/
theorem c8_identity (env : CheckEnv) (url name n : String) (out : Json)
    (h : check_website env url name = CheckResult.ok n out) :
    n = name ∧ jGet out "url" = some (Json.str url) := by
  obtain ⟨hn, st, er, hsh, _⟩ := check_website_spec env url name n out h
  subst hsh
  exact ⟨hn, by simp [jGet, lookupA]⟩

/-- Witness for C8 at a concrete successful check. -/
theorem c8_identity_witness :
    check_website (quietEnv jsonUpOk) "https://u.example" "SiteA" =
      CheckResult.ok "SiteA" (Json.obj [("status", Json.str "UP"),
        ("url", Json.str "https://u.example"), ("error", Json.null)]) ∧
    ("SiteA" = "SiteA" ∧
      jGet (Json.obj [("status", Json.str "UP"),
        ("url", Json.str "https://u.example"), ("error", Json.null)])
          "url" = some (Json.str "https://u.example")) :=
  ⟨rfl, c8_identity (quietEnv jsonUpOk) "https://u.example" "SiteA"
    "SiteA" _ rfl⟩

/-- Claim C1: after a completed run of the batch loop, every site of the
WEBSITES catalog has exactly one outcome keyed by its name under its
category in the report, and a site whose check task resolved to a captured
exception is stored as the synthesized DOWN outcome carrying the exception
message — no site is dropped. -/
theorem c1_catalog_complete (envOf : Site → CheckEnv)
    (category name url : String) (sites : List (String × String))
    (hcat : (category, sites) ∈ WEBSITES) (hsite : (name, url) ∈ sites) :
    ∃ inner, lookupA (runChecks envOf) category = some inner ∧
      (inner.map Prod.fst).count name = 1 ∧
      ∃ out, lookupA inner name = some out ∧
        out = outcomeOf envOf (name, url, category) ∧
        ∀ m, check_website (envOf (name, url, category)) url name =
            CheckResult.exc m →
          out = Json.obj [("status", Json.str "DOWN"),
            ("url", Json.str url), ("error", Json.str m)] := by
  have hmem : (name, url, category) ∈ all_checks := by
    have hbind : all_checks = WEBSITES.flatMap
        (fun cw => cw.2.map (fun w => (w.1, w.2, cw.1))) := by rfl
    rw [hbind]
    exact List.mem_flatMap.2 ⟨(category, sites), hcat,
      List.mem_map.2 ⟨(name, url), hsite, rfl⟩⟩
  have hnd : (all_checks.map (fun t => (t.2.2, t.1))).Nodup := by decide
  have hlk : lookup2 (runChecks envOf) category name =
      some (outcomeOf envOf (name, url, category)) := by
    rw [runChecks_eq_foldl]
    exact lookup2_foldl_mem envOf all_checks [] (name, url, category)
      hnd hmem
  rcases hcatl : lookupA (runChecks envOf) category with _ | inner
  · rw [lookup2, hcatl] at hlk
    simp at hlk
  · rw [lookup2, hcatl] at hlk
    simp only [Option.some_bind] at hlk
    refine ⟨inner, rfl, ?_, outcomeOf envOf (name, url, category), hlk,
      rfl, ?_⟩
    · exact List.count_eq_one_of_mem
        (innersNodup_runChecks envOf category inner hcatl)
        (mem_keys_of_lookupA hlk)
    · intro m hm
      simp [outcomeOf, hm]

/-- Witness for C1 at the Finance and Banking entry of the catalog, with an
environment in which every check resolves to a captured exception. -/
theorem c1_catalog_complete_witness :
    (("Finance & Banking", [("Dave", "https://dave.com")]) ∈ WEBSITES ∧
      ("Dave", "https://dave.com") ∈ [("Dave", "https://dave.com")]) ∧
    (∃ inner,
      lookupA (runChecks boomEnvOf) "Finance & Banking" = some inner ∧
      (inner.map Prod.fst).count "Dave" = 1 ∧
      ∃ out, lookupA inner "Dave" = some out ∧
        out = outcomeOf boomEnvOf
          ("Dave", "https://dave.com", "Finance & Banking") ∧
        ∀ m, check_website
            (boomEnvOf ("Dave", "https://dave.com", "Finance & Banking"))
            "https://dave.com" "Dave" = CheckResult.exc m →
          out = Json.obj [("status", Json.str "DOWN"),
            ("url", Json.str "https://dave.com"),
            ("error", Json.str m)]) :=
  ⟨⟨by decide, by decide⟩,
    c1_catalog_complete boomEnvOf "Finance & Banking" "Dave"
      "https://dave.com" [("Dave", "https://dave.com")]
      (by decide) (by decide)⟩

/-- Counterexample to claim C4 as stated: for agent output whose reason
field is JSON null, the check returns an outcome with status DOWN whose
error is null, so a DOWN outcome does not always carry a non-null error. -/
theorem c4_counterexample :
    check_website (quietEnv jsonDownNullReason) "https://example.com" "X" =
      CheckResult.ok "X" (Json.obj [("status", Json.str "DOWN"),
        ("url", Json.str "https://example.com"), ("error", Json.null)]) :=
  rfl

/-- Claim C4 (amended): every outcome produced for a site — returned by
check_website or synthesized from a captured exception — has a null error
when its status is UP, and a non-null error when its status is DOWN unless
the parsed agent output is a JSON object whose reason key holds JSON null,
in which case the DOWN outcome carries a null error. -/
theorem c4_error_iff_down (envOf : Site → CheckEnv) (s : Site) :
    (jGet (outcomeOf envOf s) "status" = some (Json.str "UP") →
      jGet (outcomeOf envOf s) "error" = some Json.null) ∧
    (jGet (outcomeOf envOf s) "status" = some (Json.str "DOWN") →
      jGet (outcomeOf envOf s) "error" ≠ some Json.null ∨
      ∃ kvs, json_loads (envOf s).agentOutput = some (Json.obj kvs) ∧
        lookupA kvs "reason" = some Json.null) := by
  rcases hr : check_website (envOf s) s.2.1 s.1 with m | ⟨n2, data⟩
  · constructor
    · intro hst
      simp [outcomeOf, hr, jGet, lookupA] at hst
    · intro _
      left
      simp [outcomeOf, hr, jGet, lookupA]
  · obtain ⟨hn, st, er, hsh, hcase⟩ := check_website_spec _ _ _ _ _ hr
    have hout : outcomeOf envOf s = Json.obj [("status", Json.str st),
        ("url", Json.str s.2.1), ("error", er)] := by
      simp [outcomeOf, hr, hsh]
    rw [hout]
    rcases hcase with ⟨hstUP, hernull⟩ | ⟨hstDN, hca⟩
    · subst hstUP
      subst hernull
      constructor
      · intro _
        simp [jGet, lookupA]
      · intro hst
        simp [jGet, lookupA] at hst
    · subst hstDN
      constructor
      · intro hst
        simp [jGet, lookupA] at hst
      · intro _
        rcases hca with her | hkvs
        · left
          simpa [jGet, lookupA] using her
        · right
          exact hkvs

/-- Witness for C4 at the null-reason agent output: the stored outcome has
status DOWN and the amended dichotomy applies with the null-reason case. -/
theorem c4_error_iff_down_witness :
    jGet (outcomeOf (fun _ => quietEnv jsonDownNullReason)
        ("X", "https://example.com", "C")) "status" =
      some (Json.str "DOWN") ∧
    (jGet (outcomeOf (fun _ => quietEnv jsonDownNullReason)
        ("X", "https://example.com", "C")) "error" ≠ some Json.null ∨
      ∃ kvs, json_loads ((fun _ : Site => quietEnv jsonDownNullReason)
          ("X", "https://example.com", "C")).agentOutput =
        some (Json.obj kvs) ∧ lookupA kvs "reason" = some Json.null) :=
  ⟨rfl, (c4_error_iff_down (fun _ => quietEnv jsonDownNullReason)
    ("X", "https://example.com", "C")).2 rfl⟩

/-- Counterexample to claim C5 as stated: in a run in which the report
write (json.dump) raises, the console summary is not printed and the run
fails with the write error, so finalization is not best-effort. -/
theorem c5_counterexample :
    envDumpFail.dumpExc = some "disk full" ∧
    (mainRun envDumpFail).1.summaryPrinted = false ∧
    (mainRun envDumpFail).2 = MainResult.raised "disk full" :=
  ⟨rfl, rfl, rfl⟩

/-- Claim C5 (amended): the finalization steps run in order with no
individual exception capture: in every run that reaches finalization with
results bound and in which the report write raises, nothing is recorded as
written, the summary is not printed, and the write error propagates out of
the run. -/
theorem c5_finalization_not_best_effort (env : MainEnv) (m : String)
    (hllm : env.llmInitExc = none) (hopen : env.openExc = none)
    (hdump : env.dumpExc = some m) :
    (mainRun env).1.summaryPrinted = false ∧
    (mainRun env).1.reportWritten = none ∧
    (mainRun env).2 = MainResult.raised m := by
  simp [mainRun, finalize, hllm, hopen, hdump]

/-- Witness for C5 at the concrete failing-write run environment. -/
theorem c5_finalization_not_best_effort_witness :
    (envDumpFail.llmInitExc = none ∧ envDumpFail.openExc = none ∧
      envDumpFail.dumpExc = some "disk full") ∧
    ((mainRun envDumpFail).1.summaryPrinted = false ∧
      (mainRun envDumpFail).1.reportWritten = none ∧
      (mainRun envDumpFail).2 = MainResult.raised "disk full") :=
  ⟨⟨rfl, rfl, rfl⟩,
    c5_finalization_not_best_effort envDumpFail "disk full" rfl rfl rfl⟩

/-- Claim C9: when the agent output is valid JSON but not a JSON object,
check_website does not raise: the AttributeError from the .get call on the
non-dict value is caught by the outer handler and the outcome is DOWN with
the exception message, which differs from every invalid-format text. -/
theorem c9_nondict_caught (env : CheckEnv) (url name : String) (v : Json)
    (hc : env.ctorExc = none) (hs : env.startExc = none)
    (ht : env.newTabExc = none) (ha : env.agentExc = none)
    (hp : env.pageCloseExc = none) (hx : env.closeExc = none)
    (hv : json_loads env.agentOutput = some v)
    (hnd : ∀ kvs, v ≠ Json.obj kvs) :
    check_website env url name = CheckResult.ok name
      (Json.obj [("status", Json.str "DOWN"), ("url", Json.str url),
        ("error", Json.str (attrErrMsg v))]) ∧
    ∀ t : String, attrErrMsg v ≠ invalidFmt t := by
  constructor
  · have hverd : verdictOf url env.agentOutput =
        Except.error (attrErrMsg v) := by
      cases v with
      | obj kvs => exact absurd rfl (hnd kvs)
      | null => simp [verdictOf, hv]
      | bool b => simp [verdictOf, hv]
      | num n => simp [verdictOf, hv]
      | str s2 => simp [verdictOf, hv]
      | arr xs => simp [verdictOf, hv]
    simp [check_website, hc, hx, checkTryBody, hs, ht, hp, ha, hverd]
  · intro t
    exact attrErrMsg_ne_invalidFmt v t

/-- Witness for C9 at the agent output 3, a JSON number. -/
theorem c9_nondict_caught_witness :
    ((quietEnv "3").ctorExc = none ∧ (quietEnv "3").startExc = none ∧
     (quietEnv "3").newTabExc = none ∧ (quietEnv "3").agentExc = none ∧
     (quietEnv "3").pageCloseExc = none ∧ (quietEnv "3").closeExc = none ∧
     json_loads (quietEnv "3").agentOutput = some (Json.num 3) ∧
     (∀ kvs, Json.num 3 ≠ Json.obj kvs)) ∧
    (check_website (quietEnv "3") "https://u.example" "SiteA" =
       CheckResult.ok "SiteA" (Json.obj [("status", Json.str "DOWN"),
         ("url", Json.str "https://u.example"),
         ("error", Json.str (attrErrMsg (Json.num 3)))]) ∧
     ∀ t : String, attrErrMsg (Json.num 3) ≠ invalidFmt t) :=
  ⟨⟨rfl, rfl, rfl, rfl, rfl, rfl, rfl, fun kvs h => Json.noConfusion h⟩,
    c9_nondict_caught (quietEnv "3") "https://u.example" "SiteA"
      (Json.num 3) rfl rfl rfl rfl rfl rfl rfl
      (fun kvs h => Json.noConfusion h)⟩

/-- Claim C10: every outcome stored in the report categories mapping is a
JSON object with exactly the keys status, url and error, and its status
value is the string UP or the string DOWN. -/
theorem c10_outcome_shape (envOf : Site → CheckEnv) (c n : String)
    (i : InnerDict) (out : Json)
    (hc : lookupA (runChecks envOf) c = some i)
    (hn : lookupA i n = some out) :
    ∃ kvs, out = Json.obj kvs ∧
      kvs.map Prod.fst = ["status", "url", "error"] ∧
      (lookupA kvs "status" = some (Json.str "UP") ∨
       lookupA kvs "status" = some (Json.str "DOWN")) := by
  obtain ⟨st, url, er, hsh, hstc⟩ := allShaped_runChecks envOf c i hc n out hn
  subst hsh
  refine ⟨_, rfl, by simp, ?_⟩
  rcases hstc with h1 | h1 <;> subst h1
  · left
    simp [lookupA]
  · right
    simp [lookupA]

/-- Witness for C10 at the stored outcome of the Dave site in the
exception-everywhere run. -/
theorem c10_outcome_shape_witness :
    (lookupA (runChecks boomEnvOf) "Finance & Banking" = some innerFB ∧
      lookupA innerFB "Dave" = some outDave) ∧
    (∃ kvs, outDave = Json.obj kvs ∧
      kvs.map Prod.fst = ["status", "url", "error"] ∧
      (lookupA kvs "status" = some (Json.str "UP") ∨
       lookupA kvs "status" = some (Json.str "DOWN"))) :=
  ⟨⟨rfl, rfl⟩, c10_outcome_shape boomEnvOf "Finance & Banking" "Dave"
    innerFB outDave rfl rfl⟩

/-- Claim C6: the orchestrator is strictly sequential across batches: for
any cooperative schedule whose batch-K segment mentions only batch-K sites
and resolves every batch-K site, the trace splits at the batch boundary
with every batch-K outcome resolved before the cut and no batch-K+1 check
invoked before it. -/
theorem c6_batch_sequencing (sched : Nat → List Event)
    (hOnly : ∀ p ∈ batches.enum, ∀ e ∈ sched p.1, Event.site e ∈ p.2)
    (hResolve : ∀ p ∈ batches.enum, ∀ s ∈ p.2, Event.resolve s ∈ sched p.1)
    (K : Nat) (bK bK1 : List Site)
    (hK : batches[K]? = some bK) (hK1 : batches[K + 1]? = some bK1) :
    ∃ pre post, runTrace sched = pre ++ post ∧
      (∀ s ∈ bK, Event.resolve s ∈ pre) ∧
      (∀ s ∈ bK1, Event.invoke s ∉ pre) := by
  have hKlt : K < batches.length := (List.getElem?_eq_some_iff.1 hK).1
  refine ⟨(((List.range batches.length).map sched).take (K + 1)).flatten,
    (((List.range batches.length).map sched).drop (K + 1)).flatten,
    ?_, ?_, ?_⟩
  · rw [runTrace, ← List.flatten_append, List.take_append_drop]
  · intro s hs
    have hmem : sched K ∈
        ((List.range batches.length).map sched).take (K + 1) := by
      apply List.mem_iff_getElem?.2 ⟨K, ?_⟩
      rw [List.getElem?_take]
      simp [List.getElem?_range hKlt, Nat.lt_succ_self]
    exact List.mem_flatten.2 ⟨sched K, hmem,
      hResolve (K, bK) (List.mk_mem_enum_iff_getElem?.2 hK) s hs⟩
  · intro s hs hinv
    obtain ⟨seg, hseg, hesg⟩ := List.mem_flatten.1 hinv
    obtain ⟨i, hi⟩ := List.mem_iff_getElem?.1 hseg
    have hilen :
        i < (((List.range batches.length).map sched).take (K + 1)).length :=
      (List.getElem?_eq_some_iff.1 hi).1
    have hiK : i < K + 1 := by
      rw [List.length_take] at hilen
      omega
    have hi2 : ((List.range batches.length).map sched)[i]? = some seg := by
      rw [List.getElem?_take] at hi
      simpa [hiK] using hi
    have hib : i < batches.length := by
      have hlen := (List.getElem?_eq_some_iff.1 hi2).1
      simpa using hlen
    have hseq : seg = sched i := by
      rw [List.getElem?_map, List.getElem?_range hib] at hi2
      exact (Option.some.inj hi2).symm
    rcases hbi0 : batches[i]? with _ | bi
    · rw [List.getElem?_eq_none_iff] at hbi0
      omega
    · have hsbi : Event.site (Event.invoke s) ∈ bi :=
        hOnly (i, bi) (List.mk_mem_enum_iff_getElem?.2 hbi0)
          (Event.invoke s) (hseq ▸ hesg)
      exact batch_disjoint i (K + 1) bi bK1 hiK hbi0 hK1 s hsbi hs

/-- Witness for C6 with the concrete in-order schedule, at the boundary
between the first and second batch. -/
theorem c6_batch_sequencing_witness :
    ((∀ p ∈ batches.enum, ∀ e ∈ schedW p.1, Event.site e ∈ p.2) ∧
     (∀ p ∈ batches.enum, ∀ s ∈ p.2, Event.resolve s ∈ schedW p.1) ∧
     batches[0]? = some (batches.getD 0 []) ∧
     batches[1]? = some (batches.getD 1 [])) ∧
    (∃ pre post, runTrace schedW = pre ++ post ∧
      (∀ s ∈ batches.getD 0 [], Event.resolve s ∈ pre) ∧
      (∀ s ∈ batches.getD 1 [], Event.invoke s ∉ pre)) :=
  ⟨⟨by decide, by decide, rfl, rfl⟩,
    c6_batch_sequencing schedW (by decide) (by decide) 0 _ _ rfl rfl⟩
